import Mathlib

/-!
Verification of the Kconfiglib configuration-engine specification.

The repository ships the engine's test suite (`testsuite.py`); the engine
itself (symbol/choice data model, expression evaluator, value engine,
configuration I/O) is modelled here from the specification, with the test
suite's assertions used as the authority on concrete behaviour.

Tristate values are represented as natural numbers: 0 = n (off),
1 = m (module), 2 = y (on).
-/

namespace Kconfiglib

/-- Tristate values: 0 = n, 1 = m, 2 = y. -/
abbrev Tri := Nat

/-! ## String escaping (configuration I/O)

Modelled from the spec: `escape()` quotes string values for `.config`
output by inserting a backslash before double-quote and backslash
characters only, while `unescape()` removes a backslash before any
character whatsoever (the parser's rule that a backslash escapes the
next character unconditionally). A trailing lone backslash is kept
as-is by `unescape` (the pattern needs a following character). -/

/-- True for the characters `escape` protects: double quote and backslash. -/
def needsEscape (c : Char) : Bool :=
  c = '"' || c = '\\'

/-- Modelled from the spec: `escape` inserts a backslash before every
double-quote and backslash character of the input. -/
def escapeList : List Char → List Char
  | [] => []
  | c :: r => if needsEscape c then '\\' :: c :: escapeList r else c :: escapeList r

/-- Modelled from the spec: `unescape` removes a backslash before any
character whatsoever. -/
def unescapeList : List Char → List Char
  | [] => []
  | c :: r =>
    if c = '\\' then
      match r with
      | [] => ['\\']
      | d :: r2 => d :: unescapeList r2
    else c :: unescapeList r

/-- String-level `escape`. -/
def escape (s : String) : String := ⟨escapeList s.data⟩

/-- String-level `unescape`. -/
def unescape (s : String) : String := ⟨unescapeList s.data⟩

theorem unescapeList_escapeList (l : List Char) :
    unescapeList (escapeList l) = l := by
  induction l with
  | nil => rfl
  | cons c r ih =>
    by_cases h : needsEscape c
    · simp only [escapeList, h, if_true]
      rw [unescapeList.eq_def]
      simp [ih]
    · have hc : c ≠ '\\' := fun hcc => h (by simp [needsEscape, hcc])
      simp only [escapeList, h, if_false]
      rw [unescapeList.eq_def]
      simp [hc, ih]

/-- C8: for every string s, unescape (escape s) = s; escape inserts a
backslash only before double-quote and backslash characters on output,
while unescape removes a backslash before any character whatsoever on
input, matching the parser's rule that a backslash escapes the next
character unconditionally. -/
theorem c8_escape_unescape_round_trip :
    (∀ s : String, unescape (escape s) = s) ∧
    (∀ (c : Char) (l : List Char),
      unescapeList ('\\' :: c :: l) = c :: unescapeList l) ∧
    (∀ (c : Char) (l : List Char),
      escapeList (c :: l) =
        (if c = '"' ∨ c = '\\' then ['\\', c] else [c]) ++ escapeList l) := by
  refine ⟨?_, ?_, ?_⟩
  · intro s
    cases s with
    | mk data => simp [escape, unescape, unescapeList_escapeList]
  · intro c l
    rw [unescapeList.eq_def]
    simp
  · intro c l
    rcases em (c = '"' ∨ c = '\\') with h | h
    · have hb : needsEscape c = true := by
        rcases h with h | h <;> simp [needsEscape, h]
      simp [escapeList, hb, h]
    · have hb : ¬ (needsEscape c = true) := by
        simp only [needsEscape, Bool.or_eq_true, decide_eq_true_eq]
        exact h
      simp [escapeList, hb, h]

/-! ## Python-style integer parsing and formatting

The engine validates and converts numeric strings with Python's
int(s, base) and renders numbers with str() / hex(). -/

/-- Value of a digit character, as Python int() accepts (0-9, a-z, A-Z). -/
def digitVal (c : Char) : Option Nat :=
  if '0' ≤ c ∧ c ≤ '9' then some (c.toNat - '0'.toNat)
  else if 'a' ≤ c ∧ c ≤ 'z' then some (c.toNat - 'a'.toNat + 10)
  else if 'A' ≤ c ∧ c ≤ 'Z' then some (c.toNat - 'A'.toNat + 10)
  else none

/-- Accumulates a run of digits in base b, most significant first. -/
def parseDigitsAux (b : Nat) : List Char → Nat → Option Nat
  | [], acc => some acc
  | c :: r, acc =>
    match digitVal c with
    | some d => if d < b then parseDigitsAux b r (acc * b + d) else none
    | none => none

/-- A non-empty run of digits in base b, or none. -/
def parseDigits (b : Nat) : List Char → Option Nat
  | [] => none
  | l => parseDigitsAux b l 0

/-- Magnitude for Python int(s, 0): the base is chosen by the prefix; a
decimal magnitude may not have a leading zero unless it is all zeros.
The binary and octal prefixes are not modelled (the engine never
produces them). -/
def parseMagBase0 : List Char → Option Nat
  | '0' :: 'x' :: r => parseDigits 16 r
  | '0' :: 'X' :: r => parseDigits 16 r
  | l =>
    match l with
    | [] => none
    | c :: _ =>
      if c = '0' then (if l.all (fun x => x = '0') then some 0 else none)
      else parseDigits 10 l

/-- Magnitude of Python int(s, b): base 16 allows an optional 0x / 0X
prefix, base 0 determines the base from the prefix. -/
def parseMag (b : Nat) (l : List Char) : Option Nat :=
  if b = 16 then
    match l with
    | '0' :: 'x' :: r => parseDigits 16 r
    | '0' :: 'X' :: r => parseDigits 16 r
    | _ => parseDigits 16 l
  else if b = 0 then parseMagBase0 l
  else parseDigits b l

/-- Python int(s, b) for the bases the engine uses (0, 10, 16): an
optional sign followed by a magnitude; none when the text does not
parse (Python's ValueError). -/
def pyInt (b : Nat) (s : String) : Option Int :=
  match s.data with
  | '-' :: r => (parseMag b r).map (fun n => -(n : Int))
  | '+' :: r => (parseMag b r).map (fun n => (n : Int))
  | l => (parseMag b l).map (fun n => (n : Int))

/-- The engine's _is_base_n(s, b): does Python int(s, b) succeed. -/
def isBaseN (s : String) (b : Nat) : Bool := (pyInt b s).isSome

/-- Python hex(): lowercase hexadecimal with a 0x prefix. -/
def pyHex (i : Int) : String :=
  if i < 0 then "-0x" ++ ⟨Nat.toDigits 16 i.natAbs⟩
  else "0x" ++ ⟨Nat.toDigits 16 i.natAbs⟩

/-- Python str() of an integer. -/
def pyStr (i : Int) : String := toString i

/-! ## Expression evaluation (types, operands, relations) -/

/-- Declared symbol types; unknown covers constants and undeclared
symbols. -/
inductive SymType
  | unknown
  | bool
  | tristate
  | string
  | int
  | hex
  deriving DecidableEq

/-- One operand of an expression: a symbol or constant with its declared
type, string value, and tristate value. -/
structure Operand where
  origType : SymType
  strVal : String
  triVal : Tri
  deriving DecidableEq

/-- Symbol.tri_value: non-bool/tristate symbols are 0 in a tristate
sense. -/
def triValueOf (v : Operand) : Tri :=
  if v.origType = .bool ∨ v.origType = .tristate then v.triVal else 0

/-- The engine's _TYPE_TO_BASE: hexadecimal for hex-typed symbols (even
when the literal text lacks a 0x prefix), decimal for int-typed ones,
prefix-determined (base 0) otherwise. -/
def typeBase : SymType → Nat
  | .hex => 16
  | .int => 10
  | _ => 0

/-- Modelled from the spec (§4.2): _sym_to_num - bool/tristate symbols
convert to their tristate value (n/m/y count as 0/1/2); other symbols
convert by parsing their string value in the base implied by their
type; none models the ValueError fall-back. -/
def symToNum (v : Operand) : Option Int :=
  if v.origType = .bool ∨ v.origType = .tristate then some (triValueOf v)
  else pyInt (typeBase v.origType) v.strVal

/-- Lexicographic three-way comparison of character lists by code
point, as Python compares strings. -/
def lexCmpList : List Char → List Char → Ordering
  | [], [] => .eq
  | [], _ :: _ => .lt
  | _ :: _, [] => .gt
  | a :: l1, b :: l2 =>
    if a < b then .lt else if b < a then .gt else lexCmpList l1 l2

/-- Python string comparison, three-way. -/
def strCmp (s1 s2 : String) : Ordering := lexCmpList s1.data s2.data

/-- Three-way integer comparison. -/
def intCmp (a b : Int) : Ordering :=
  if a < b then .lt else if b < a then .gt else .eq

/-- The six relation operators of the expression grammar. -/
inductive Rel
  | eq
  | ne
  | lt
  | le
  | gt
  | ge
  deriving DecidableEq

/-- Truth of a relation given the three-way comparison of its
operands. -/
def relHolds (r : Rel) (o : Ordering) : Bool :=
  match r with
  | .eq => o = .eq
  | .ne => o ≠ .eq
  | .lt => o = .lt
  | .le => o ≠ .gt
  | .gt => o = .gt
  | .ge => o ≠ .lt

/-- Tristate truth value of a boolean: 2 = y when true, 0 = n when
false. -/
def triOfBool (b : Bool) : Tri := if b then 2 else 0

/-- Modelled from the spec (§4.2) and the testsuite's expression tests:
relation evaluation. If both operands are string-typed the comparison
is lexicographic; otherwise both operands are converted to numbers
(_sym_to_num) and compared numerically, falling back to a lexicographic
comparison of the operands' string forms when either conversion
fails. -/
def evalRel (r : Rel) (v1 v2 : Operand) : Tri :=
  let ord : Ordering :=
    if v1.origType = .string ∧ v2.origType = .string then
      strCmp v1.strVal v2.strVal
    else
      match symToNum v1, symToNum v2 with
      | some a, some b => intCmp a b
      | _, _ => strCmp v1.strVal v2.strVal
  triOfBool (relHolds r ord)

/-- Expression trees: symbol/constant references, the three logical
connectives, and binary relations between operands. -/
inductive Expr
  | ref (v : Operand)
  | not (e : Expr)
  | and (e1 e2 : Expr)
  | or (e1 e2 : Expr)
  | rel (r : Rel) (v1 v2 : Operand)

/-- Modelled from the spec (§4.2): expr_value - AND is the minimum of
the operands, OR the maximum, NOT x is 2 - x; a reference evaluates to
the operand's tristate value (0 for non-bool/tristate symbols and
non-tristate constants). -/
def exprValue : Expr → Tri
  | .ref v => triValueOf v
  | .not e => 2 - exprValue e
  | .and a b => min (exprValue a) (exprValue b)
  | .or a b => max (exprValue a) (exprValue b)
  | .rel r v1 v2 => evalRel r v1 v2

/-- The tristate literal vocabulary. -/
def STR_TO_TRI (s : String) : Option Tri :=
  if s = "n" then some 0 else if s = "m" then some 1
  else if s = "y" then some 2 else none

/-- Modelled from the spec (§3): constant symbols - the tristate
literals get type tristate and the corresponding tristate value; every
other constant (quoted literal, number) gets unknown type and tristate
value 0. -/
def mkConstOperand (s : String) : Operand :=
  match STR_TO_TRI s with
  | some t => ⟨.tristate, s, t⟩
  | none => ⟨.unknown, s, 0⟩

/-- A defined tristate symbol currently holding tristate value x. -/
def triSym (x : Tri) : Operand := ⟨.tristate, "", x⟩

/-- C5: for all tristate values x, y in 0..2 the evaluator computes
AND(x,y) = min(x,y) and OR(x,y) = max(x,y); NOT maps 0 to 2 and 2 to 0;
constant string operands other than the tristate literals n/m/y, and
non-bool/non-tristate symbols, evaluate to 0 in a tristate context. -/
theorem c5_tristate_algebra :
    (∀ x y : Tri, x ≤ 2 → y ≤ 2 →
      exprValue (.and (.ref (triSym x)) (.ref (triSym y))) = min x y ∧
      exprValue (.or (.ref (triSym x)) (.ref (triSym y))) = max x y) ∧
    (∀ e : Expr, (exprValue e = 0 → exprValue (.not e) = 2) ∧
                 (exprValue e = 2 → exprValue (.not e) = 0)) ∧
    (∀ s : String, s ≠ "n" → s ≠ "m" → s ≠ "y" →
      exprValue (.ref (mkConstOperand s)) = 0) ∧
    (∀ v : Operand, v.origType ≠ .bool → v.origType ≠ .tristate →
      exprValue (.ref v) = 0) := by
  refine ⟨?_, ?_, ?_, ?_⟩
  · intro x y _ _
    constructor <;> simp [exprValue, triValueOf, triSym]
  · intro e
    constructor <;> intro h <;> simp [exprValue, h]
  · intro s hn hm hy
    simp [exprValue, mkConstOperand, STR_TO_TRI, hn, hm, hy, triValueOf]
  · intro v hb ht
    simp [exprValue, triValueOf, hb, ht]

/-- C5 witness: the theorem applied at concrete inputs. -/
theorem c5_tristate_algebra_witness :
    exprValue (.and (.ref (triSym 1)) (.ref (triSym 2))) = 1 ∧
    exprValue (.or (.ref (triSym 1)) (.ref (triSym 2))) = 2 ∧
    exprValue (.not (.ref (triSym 0))) = 2 ∧
    exprValue (.ref (mkConstOperand "foo")) = 0 ∧
    exprValue (.ref ⟨.string, "y", 2⟩) = 0 := by
  have h := c5_tristate_algebra
  have h1 := h.1 1 2 (by decide) (by decide)
  refine ⟨h1.1, h1.2, ?_, ?_, ?_⟩
  · exact (h.2.1 (.ref (triSym 0))).1 (by decide)
  · exact h.2.2.1 "foo" (by decide) (by decide) (by decide)
  · exact h.2.2.2 ⟨.string, "y", 2⟩ (by decide) (by decide)

/-- C4 as stated by the specification: for every ordering comparison,
if both operand strings parse as integers in the base implied by their
type (decimal for int-typed symbols, hexadecimal for hex-typed symbols
even without a 0x prefix, prefix-determined for literals and all other
types), the comparison is numeric; otherwise it is lexicographic on the
operands' string forms. -/
def OrderingClaimStated : Prop :=
  ∀ (r : Rel) (v1 v2 : Operand),
    (r = .lt ∨ r = .le ∨ r = .gt ∨ r = .ge) →
    match pyInt (typeBase v1.origType) v1.strVal,
          pyInt (typeBase v2.origType) v2.strVal with
    | some a, some b =>
        evalRel r v1 v2 = triOfBool (relHolds r (intCmp a b))
    | _, _ =>
        evalRel r v1 v2 = triOfBool (relHolds r (strCmp v1.strVal v2.strVal))

/-- C4 counterexample: the tristate constants n and m have string forms
"n" and "m", which parse as integers in no implied base, yet the
evaluator compares them by their tristate values 0 < 1, giving
"n < m" = y (testsuite.py line 425); the claim's lexicographic fallback
would give n, since "m" precedes "n". -/
theorem c4_counterexample : ¬ OrderingClaimStated := by
  intro h
  have key : evalRel .lt (mkConstOperand "n") (mkConstOperand "m") =
      triOfBool (relHolds .lt
        (strCmp (mkConstOperand "n").strVal (mkConstOperand "m").strVal)) :=
    h .lt (mkConstOperand "n") (mkConstOperand "m") (Or.inl rfl)
  exact absurd key (by decide)

/-- C4 amended: ordering comparisons between two string-typed symbols
are lexicographic; otherwise the comparison is numeric whenever both
operands convert to numbers - int/hex-typed and literal operands by
parsing their string in the type-implied base (decimal for int,
hexadecimal for hex even without a 0x prefix, prefix-determined for
literals), bool/tristate operands by their tristate value - and falls
back to a lexicographic comparison of the operands' string forms when
either conversion fails. -/
theorem c4_ordering_comparisons (r : Rel) (v1 v2 : Operand) :
    (v1.origType = .string ∧ v2.origType = .string →
      evalRel r v1 v2 = triOfBool (relHolds r (strCmp v1.strVal v2.strVal))) ∧
    (∀ a b : Int, ¬(v1.origType = .string ∧ v2.origType = .string) →
      symToNum v1 = some a → symToNum v2 = some b →
      evalRel r v1 v2 = triOfBool (relHolds r (intCmp a b))) ∧
    ((symToNum v1 = none ∨ symToNum v2 = none) →
      evalRel r v1 v2 = triOfBool (relHolds r (strCmp v1.strVal v2.strVal))) := by
  refine ⟨?_, ?_, ?_⟩
  · intro hs
    simp [evalRel, hs.1, hs.2]
  · intro a b hs h1 h2
    simp [evalRel, hs, h1, h2]
  · intro hn
    by_cases hs : v1.origType = .string ∧ v2.origType = .string
    · simp [evalRel, hs.1, hs.2]
    · rcases hn with hn | hn <;> simp [evalRel, hs, hn]

/-- C4 witness: the amended theorem applied at concrete inputs - two
string symbols compare lexicographically, an int symbol against a hex
literal compares numerically, and a non-numeric operand forces the
lexicographic fallback. -/
theorem c4_ordering_comparisons_witness :
    evalRel .lt ⟨.string, "aa", 0⟩ ⟨.string, "ab", 0⟩ = 2 ∧
    evalRel .lt ⟨.int, "37", 0⟩ (mkConstOperand "0x26") = 2 ∧
    evalRel .lt ⟨.int, "37", 0⟩ (mkConstOperand "37a") = 2 := by
  refine ⟨?_, ?_, ?_⟩
  · exact ((c4_ordering_comparisons .lt ⟨.string, "aa", 0⟩
      ⟨.string, "ab", 0⟩).1 (by exact ⟨rfl, rfl⟩)).trans (by decide)
  · exact ((c4_ordering_comparisons .lt ⟨.int, "37", 0⟩
      (mkConstOperand "0x26")).2.1 37 38 (by decide) (by decide)
      (by decide)).trans (by decide)
  · exact ((c4_ordering_comparisons .lt ⟨.int, "37", 0⟩
      (mkConstOperand "37a")).2.2 (Or.inr (by decide))).trans (by decide)

/-! ## Symbols and user-value assignment -/

/-- A user-proposed value: a tristate (the Python API's 0/1/2 ints) or
a string. -/
inductive KVal
  | tri (t : Tri)
  | str (s : String)
  deriving DecidableEq

/-- Modelled from the spec (§7) and the testsuite's user_value tests:
the set_value type/domain check - bool accepts the tristates 0 and 2,
tristate accepts 0, 1 and 2, string accepts any string, int accepts
decimal strings, hex accepts non-negative hexadecimal strings (0x
prefix optional); everything else is a mismatch. -/
def validForType (t : SymType) (v : KVal) : Bool :=
  match t, v with
  | .bool, .tri n => n = 0 || n = 2
  | .tristate, .tri n => n = 0 || n = 1 || n = 2
  | .string, .str _ => true
  | .int, .str s => isBaseN s 10
  | .hex, .str s => isBaseN s 16 && decide (0 ≤ (pyInt 16 s).getD 0)
  | _, _ => false

/-- Symbol state relevant to assignment: declared type, constant flag,
environment binding, stored user value, and parse-time structure (number
of definition nodes, prompt condition values, reverse dependents, and
choice membership). -/
structure Symbol where
  name : String
  origType : SymType
  isConstant : Bool := false
  envVar : Option String := none
  userValue : Option KVal := none
  nodes : Nat := 0
  prompts : List Tri := []
  dependents : List String := []
  choice : Option String := none
  deriving DecidableEq

/-- Modelled from the spec (§4.3, §7): Symbol.set_value returns a
success flag instead of raising; a constant or environment-bound symbol
rejects every assignment; otherwise the proposed value is checked
against the declared type only (never against visibility or ranges) and
stored as the user value on success, the old user value being retained
on failure. -/
def setValue (sym : Symbol) (v : KVal) : Bool × Symbol :=
  if sym.isConstant then (false, sym)
  else if sym.envVar.isSome then (false, sym)
  else if validForType sym.origType v then
    (true, { sym with userValue := some v })
  else (false, sym)

/-- C1: for every ordinary (non-constant, non-environment-bound)
symbol, set_value returns a boolean success indicator; it returns False
exactly when the proposed value is a type/domain mismatch for the
declared type; on every failed call the symbol, in particular its
stored user value, is unchanged; and a string that is syntactically
valid for a numeric type is always accepted and stored as the user
value - set_value takes no range information at all, so an active range
can only affect the computed value (calcNum), never acceptance. -/
theorem c1_set_value_success (sym : Symbol) (v : KVal)
    (hc : sym.isConstant = false) (he : sym.envVar = none) :
    ((setValue sym v).1 = true ↔ validForType sym.origType v = true) ∧
    ((setValue sym v).1 = false → (setValue sym v).2 = sym) ∧
    ((setValue sym v).1 = true →
      (setValue sym v).2.userValue = some v) ∧
    (∀ s : String, v = .str s →
      ((sym.origType = .int ∧ isBaseN s 10 = true) ∨
       (sym.origType = .hex ∧ isBaseN s 16 = true ∧
        0 ≤ (pyInt 16 s).getD 0)) →
      (setValue sym v).1 = true ∧
      (setValue sym v).2.userValue = some v) := by
  refine ⟨?_, ?_, ?_, ?_⟩
  · constructor
    · intro h
      by_contra hval
      simp [setValue, hc, he, hval] at h
    · intro hval
      simp [setValue, hc, he, hval]
  · intro h
    by_cases hval : validForType sym.origType v = true <;>
      simp [setValue, hc, he, hval] at h ⊢
  · intro h
    by_cases hval : validForType sym.origType v = true <;>
      simp [setValue, hc, he, hval] at h ⊢
  · intro s hs hnum
    have hval : validForType sym.origType v = true := by
      rcases hnum with ⟨ht, hb⟩ | ⟨ht, hb, hpos⟩
      · simp [hs, ht, validForType, hb]
      · simp [hs, ht, validForType, hb, hpos]
    simp [setValue, hc, he, hval]

/-- C1 witness: an int symbol accepts the decimal string "123" and
stores it as the user value. -/
theorem c1_set_value_success_witness :
    (setValue { name := "INT", origType := .int } (.str "123")).1 = true ∧
    (setValue { name := "INT", origType := .int }
      (.str "123")).2.userValue = some (.str "123") :=
  (c1_set_value_success { name := "INT", origType := .int }
    (.str "123") rfl rfl).2.2.2 "123" rfl (Or.inl ⟨rfl, by decide⟩)

/-! ## Computed value of int/hex symbols (range clamping) -/

/-- Inputs to the int/hex computed-value calculation: hex flag,
visibility, stored user value, the first default whose condition
currently holds (its string value), and the first range whose condition
currently holds (low and high bound string values). -/
structure NumCalcIn where
  isHex : Bool
  vis : Tri
  user : Option String
  default : Option String
  range : Option (String × String)

/-- Rendering of a clamped bound: Python str() for int symbols, hex()
for hex symbols. -/
def renderNum (isHex : Bool) (i : Int) : String :=
  if isHex then pyHex i else pyStr i

/-- Modelled from the spec (§4.3.3, §8) and the testsuite's range
tests: the computed value of an int/hex symbol. A well-formed user
value of a visible symbol that satisfies the active range (if any) is
used verbatim, preserving its textual form; otherwise the first active
default's text is used (empty when there is none, parsing to 0 as C
strtoll does on malformed or empty text), clamped to the nearest bound
of the active range, a clamped bound being rewritten into canonical
decimal or hexadecimal form. -/
def calcNum (c : NumCalcIn) : String :=
  let base := if c.isHex then 16 else 10
  let rangeN := c.range.map
    (fun p => ((pyInt base p.1).getD 0, (pyInt base p.2).getD 0))
  let userOk : Bool :=
    match c.user with
    | none => false
    | some u =>
      decide (0 < c.vis) && (pyInt base u).isSome &&
      (match rangeN with
       | none => true
       | some (lo, hi) =>
         decide (lo ≤ (pyInt base u).getD 0 ∧ (pyInt base u).getD 0 ≤ hi))
  if userOk then c.user.getD ""
  else
    let val := c.default.getD ""
    let num : Int :=
      match c.default with
      | some d => (pyInt base d).getD 0
      | none => 0
    match rangeN with
    | none => val
    | some (lo, hi) =>
      if num < lo then renderNum c.isHex lo
      else if hi < num then renderNum c.isHex hi
      else val

/-- C2 as stated by the specification: assigning a numeric value below
an active range's low bound yields, as the computed value, the low
bound, or the declared default if one falls in-range. -/
def RangeClampClaimStated : Prop :=
  ∀ (c : NumCalcIn) (lo hi u : String) (loN hiN uN : Int),
    c.range = some (lo, hi) →
    pyInt (if c.isHex then 16 else 10) lo = some loN →
    pyInt (if c.isHex then 16 else 10) hi = some hiN →
    0 < c.vis →
    c.user = some u →
    pyInt (if c.isHex then 16 else 10) u = some uN →
    uN < loN →
    (calcNum c = renderNum c.isHex loN ∨
     (∃ d dN, c.default = some d ∧
       pyInt (if c.isHex then 16 else 10) d = some dN ∧
       loN ≤ dN ∧ dN ≤ hiN ∧ calcNum c = d))

/-- C2 counterexample: an int symbol with range 10..20 and the declared
default 25 above the range; assigning the user value 9 (below the
range) computes to "20" - the high bound, which is neither the low
bound "10" nor an in-range default. Pinned by the testsuite's
verify_range("INT_RANGE_10_20_HIGH_DEFAULT", 10, 20, 20). -/
theorem c2_counterexample : ¬ RangeClampClaimStated := by
  intro h
  rcases h ⟨false, 2, some "9", some "25", some ("10", "20")⟩ "10" "20" "9"
      10 20 9 rfl (by decide) (by decide) (by decide) rfl (by decide)
      (by decide) with hcl | ⟨d, dN, hd, hdn, _, hhi2, _⟩
  · exact absurd hcl (by decide)
  · obtain rfl : "25" = d := Option.some.inj hd
    have h25 : pyInt 10 "25" = some 25 := by decide
    have hdn2 : some (25 : Int) = some dN := by
      rw [← h25]
      exact hdn
    obtain rfl : (25 : Int) = dN := Option.some.inj hdn2
    omega

/-- C2 amended: for an int or hex symbol with a currently active range,
an assigned numeric value below the range's low bound makes the
computed value revert to the default path - the declared default's own
text when it falls in the range, the canonical rendering of the low
bound when there is no default (and the low bound is positive) or the
default lies below the range, the canonical rendering of the high bound
when the default lies above the range, and the absent value "" when
there is no default and 0 lies inside the range; a value within the
range is computed exactly as assigned, so a hex symbol's computed value
preserves the textual radix form (with or without the 0x prefix) of
whichever user value or default supplied it. -/
theorem c2_range_clamping (c : NumCalcIn) (lo hi u : String)
    (loN hiN uN : Int)
    (hr : c.range = some (lo, hi))
    (hlo : pyInt (if c.isHex then 16 else 10) lo = some loN)
    (hhi : pyInt (if c.isHex then 16 else 10) hi = some hiN)
    (hwf : loN ≤ hiN)
    (hv : 0 < c.vis)
    (hu : c.user = some u)
    (hun : pyInt (if c.isHex then 16 else 10) u = some uN) :
    (uN < loN →
      (c.default = none → 0 < loN → calcNum c = renderNum c.isHex loN) ∧
      (c.default = none → loN ≤ 0 → 0 ≤ hiN → calcNum c = "") ∧
      (∀ d dN, c.default = some d →
        pyInt (if c.isHex then 16 else 10) d = some dN →
        (loN ≤ dN → dN ≤ hiN → calcNum c = d) ∧
        (dN < loN → calcNum c = renderNum c.isHex loN) ∧
        (hiN < dN → calcNum c = renderNum c.isHex hiN))) ∧
    (loN ≤ uN → uN ≤ hiN → calcNum c = u) := by
  constructor
  · intro hlt
    have hnle : ¬ (loN ≤ uN ∧ uN ≤ hiN) := fun hh => absurd hh.1 (not_le.mpr hlt)
    refine ⟨?_, ?_, ?_⟩
    · intro hd h0
      simp [calcNum, hr, hu, hun, hlo, hhi, hd, hv, hnle, h0]
    · intro hd h0 h1
      simp [calcNum, hr, hu, hun, hlo, hhi, hd, hv, hnle,
        not_lt.mpr h0, not_lt.mpr h1]
    · intro d dN hd hdn
      refine ⟨?_, ?_, ?_⟩
      · intro hdl hdh
        simp [calcNum, hr, hu, hun, hlo, hhi, hd, hdn, hv, hnle,
          not_lt.mpr hdl, not_lt.mpr hdh]
      · intro hdl
        simp [calcNum, hr, hu, hun, hlo, hhi, hd, hdn, hv, hnle, hdl]
      · intro hdh
        simp [calcNum, hr, hu, hun, hlo, hhi, hd, hdn, hv, hnle, hdh,
          not_lt.mpr (le_trans hwf (le_of_lt hdh))]
  · intro h1 h2
    simp [calcNum, hr, hu, hun, hlo, hhi, hv, h1, h2]

/-- C2 witness: the specification's own example scenario - a hex symbol
with range 0x10..0x20 and the out-of-range default 5 computes, after
the below-range assignment 0x9, to the clamped low bound "0x10"; the
in-range assignment 0x18 is computed verbatim as "0x18". -/
theorem c2_range_clamping_witness :
    calcNum ⟨true, 2, some "0x9", some "5", some ("0x10", "0x20")⟩
      = "0x10" ∧
    calcNum ⟨true, 2, some "0x18", some "5", some ("0x10", "0x20")⟩
      = "0x18" := by
  constructor
  · exact ((((c2_range_clamping
      ⟨true, 2, some "0x9", some "5", some ("0x10", "0x20")⟩
      "0x10" "0x20" "0x9" 16 32 9 rfl (by decide) (by decide) (by decide)
      (by decide) rfl (by decide)).1 (by decide)).2.2 "5" 5 rfl
      (by decide)).2.1 (by decide)).trans (by decide)
  · exact (c2_range_clamping
      ⟨true, 2, some "0x18", some "5", some ("0x10", "0x20")⟩
      "0x10" "0x20" "0x18" 16 32 24 rfl (by decide) (by decide) (by decide)
      (by decide) rfl (by decide)).2 (by decide) (by decide)

/-! ## Configuration-file loading (replace / append) -/

/-- One meaningful line of a .config file: NAME=value; the comment form
"# NAME is not set" is represented as the assignment of tristate 0. -/
structure ConfigLine where
  name : String
  val : KVal
  deriving DecidableEq

/-- User-value state of the whole symbol table: name to stored user
value. -/
def UserState := String → Option KVal

/-- Modelled from the spec (§4.4): applying one assignment line - names
not present in the symbol table are ignored; a recognized name gets the
line's value stored as its user value. -/
def applyLine (table : List String) (st : UserState)
    (line : ConfigLine) : UserState :=
  if line.name ∈ table then
    fun n => if n = line.name then some line.val else st n
  else st

/-- Modelled from the spec (§4.4): load_config - replace mode first
unsets every currently assigned symbol's user value, append mode leaves
prior values in place; the file's lines are then applied in order. -/
def loadConfig (table : List String) (replace : Bool)
    (lines : List ConfigLine) (st : UserState) : UserState :=
  lines.foldl (applyLine table) (if replace then (fun _ => none) else st)

theorem foldl_applyLine_not_mentioned (table : List String) (n : String) :
    ∀ (lines : List ConfigLine) (st : UserState),
      (∀ l ∈ lines, l.name ≠ n) →
      (lines.foldl (applyLine table) st) n = st n := by
  intro lines
  induction lines with
  | nil => intro st _; rfl
  | cons l rest ih =>
    intro st h
    simp only [List.foldl_cons]
    rw [ih _ (fun x hx => h x (List.mem_cons_of_mem _ hx))]
    have hne : n ≠ l.name := fun he => (h l (List.mem_cons_self l rest)) he.symm
    by_cases hm : l.name ∈ table <;> simp [applyLine, hm, hne]

theorem foldl_applyLine_unrecognized (table : List String) (n : String)
    (hn : n ∉ table) :
    ∀ (lines : List ConfigLine) (st : UserState),
      (lines.foldl (applyLine table) st) n = st n := by
  intro lines
  induction lines with
  | nil => intro st; rfl
  | cons l rest ih =>
    intro st
    simp only [List.foldl_cons]
    rw [ih]
    by_cases hm : l.name ∈ table
    · have hne : n ≠ l.name := fun he => hn (he ▸ hm)
      simp [applyLine, hm, hne]
    · simp [applyLine, hm]

/-- C7: loading in append (merge) mode leaves the prior user values of
symbols not mentioned in the file in place, while replace mode first
unsets every currently assigned symbol's user value (symbols not
mentioned end up unset); unrecognized names are ignored; and loading a
completely empty file in replace mode resets every symbol to its
un-assigned state. -/
theorem c7_load_config_modes (table : List String)
    (lines : List ConfigLine) (st : UserState) :
    (∀ n, (∀ l ∈ lines, l.name ≠ n) →
      loadConfig table false lines st n = st n) ∧
    (∀ n, (∀ l ∈ lines, l.name ≠ n) →
      loadConfig table true lines st n = none) ∧
    (∀ n, n ∉ table →
      loadConfig table false lines st n = st n ∧
      loadConfig table true lines st n = none) ∧
    (∀ n, loadConfig table true [] st n = none) := by
  refine ⟨?_, ?_, ?_, ?_⟩
  · intro n h
    exact foldl_applyLine_not_mentioned table n lines _ h
  · intro n h
    exact foldl_applyLine_not_mentioned table n lines _ h
  · intro n hn
    exact ⟨foldl_applyLine_unrecognized table n hn lines _,
           foldl_applyLine_unrecognized table n hn lines _⟩
  · intro n
    rfl

/-- C7 witness: with a table containing BOOL and STRING and a file
assigning only BOOL, append mode keeps STRING's prior user value and
replace mode with an empty file clears it; the unknown name JUNK is
ignored in both modes. -/
theorem c7_load_config_modes_witness :
    loadConfig ["BOOL", "STRING"] false
      [⟨"BOOL", .tri 2⟩, ⟨"JUNK", .tri 2⟩]
      (fun n => if n = "STRING" then some (.str "foo bar") else none)
      "STRING" = some (.str "foo bar") ∧
    loadConfig ["BOOL", "STRING"] true ([] : List ConfigLine)
      (fun n => if n = "STRING" then some (.str "foo bar") else none)
      "STRING" = none ∧
    loadConfig ["BOOL", "STRING"] true
      [⟨"BOOL", .tri 2⟩, ⟨"JUNK", .tri 2⟩]
      (fun _ => none) "JUNK" = none := by
  refine ⟨?_, ?_, ?_⟩
  · exact (c7_load_config_modes ["BOOL", "STRING"]
      [⟨"BOOL", .tri 2⟩, ⟨"JUNK", .tri 2⟩] _).1 "STRING" (by decide)
  · exact (c7_load_config_modes ["BOOL", "STRING"] [] _).2.2.2 "STRING"
  · exact ((c7_load_config_modes ["BOOL", "STRING"]
      [⟨"BOOL", .tri 2⟩, ⟨"JUNK", .tri 2⟩] _).2.2.1 "JUNK" (by decide)).2

/-! ## Environment-bound symbols (option env) -/

/-- An environment-bound symbol together with its default list (string
values of the default expressions, in declaration order). -/
structure EnvSym where
  sym : Symbol
  defaults : List String

/-- Modelled from the spec (§3, §6): a symbol declared with
option env="NAME" captures the environment variable's value at parse
time as its first default; when the variable is missing from the
environment only the file-declared defaults remain. -/
def mkEnvSym (name envName : String) (env : String → Option String)
    (fileDefaults : List String) : EnvSym :=
  { sym := { name := name, origType := .string, envVar := some envName },
    defaults :=
      match env envName with
      | some v => v :: fileDefaults
      | none => fileDefaults }

/-- Modelled from the spec (§4.3.3): a string symbol's effective
value - the user value when present, else the first active default,
else the empty string. -/
def strValue (user : Option String) (defaults : List String) : String :=
  match user with
  | some u => u
  | none => (defaults.head?).getD ""

/-- C10: a symbol bound to an environment variable rejects every
user-value assignment - set_value returns False and the user value
remains absent - and its effective value is the environment variable's
value captured at parse time, falling back to the declared default
when the variable is missing from the environment. -/
theorem c10_env_symbol (name envName d : String)
    (env : String → Option String) (v : KVal) :
    (setValue (mkEnvSym name envName env [d]).sym v).1 = false ∧
    (setValue (mkEnvSym name envName env [d]).sym v).2.userValue = none ∧
    strValue none (mkEnvSym name envName env [d]).defaults
      = (env envName).getD d := by
  refine ⟨?_, ?_, ?_⟩
  · simp [setValue, mkEnvSym]
  · simp [setValue, mkEnvSym]
  · cases h : env envName <;> simp [setValue, mkEnvSym, strValue, h]

/-! ## Constant symbols and the constant-symbol table -/

/-- Modelled from the spec (§3): a constant symbol - the tristate
literals n/m/y get tristate type, quoted literals unknown type;
constants have no definition nodes, no prompts, no dependents, and
belong to no choice. -/
def mkConstSymbol (s : String) : Symbol :=
  { name := s,
    origType :=
      match STR_TO_TRI s with
      | some _ => .tristate
      | none => .unknown,
    isConstant := true }

/-- The two symbol tables of a configuration. -/
structure SymTables where
  syms : List Symbol
  constSyms : List Symbol

/-- The tables right after construction: the reserved tristate literals
n, m, y populate the constant-symbol table. -/
def initTables : SymTables :=
  { syms := [],
    constSyms := [mkConstSymbol "n", mkConstSymbol "m", mkConstSymbol "y"] }

/-- Parse-time table updates: defining an ordinary symbol (adding one
menu node, prompts, reverse dependents, possibly a choice membership)
and interning a quoted literal as a constant symbol. -/
inductive BuildOp
  | define (name : String) (t : SymType) (prompts : List Tri)
      (dependents : List String) (choice : Option String)
  | intern (s : String)

/-- Modelled from the spec (§3, §4.1): one parse step. Ordinary
definitions go to the symbol table, a repeated definition merging into
the single logical symbol (one more node, appended prompts and
dependents); quoted literals are interned once into the separate
constant-symbol table. -/
def applyBuildOp (k : SymTables) : BuildOp → SymTables
  | .define name t prompts dependents choice =>
    { k with syms :=
        if (k.syms.map Symbol.name).contains name then
          k.syms.map (fun s =>
            if s.name = name then
              { s with
                nodes := s.nodes + 1,
                prompts := s.prompts ++ prompts,
                dependents := s.dependents ++ dependents }
            else s)
        else
          { name := name, origType := t, nodes := 1, prompts := prompts,
            dependents := dependents, choice := choice } :: k.syms }
  | .intern s =>
    { k with constSyms :=
        if (k.constSyms.map Symbol.name).contains s then k.constSyms
        else mkConstSymbol s :: k.constSyms }

/-- Modelled from the spec (§4.3.1) and the testsuite's visibility
tests: a symbol's prompt visibility - the maximum over the condition
values of its prompts (off when it has none), with m promoted to y for
non-tristate symbols. -/
def symVisibility (sym : Symbol) : Tri :=
  let v := sym.prompts.foldl max 0
  if v = 1 ∧ sym.origType ≠ .tristate then 2 else v

/-- Modelled from the spec (§4.3.2) and the testsuite's .assignable
tests: the assignable tristate set - empty at visibility off, 0/2 for
bool, 0/1/2 or 0/1 for tristate depending on visibility; string,
int and hex symbols (and symbols of unknown type) report the empty
tuple. Select promotion is not modelled (constants have no selects). -/
def assignable (sym : Symbol) : List Tri :=
  let v := symVisibility sym
  if v = 0 then []
  else
    match sym.origType with
    | .bool => [0, 2]
    | .tristate => if v = 2 then [0, 1, 2] else [0, 1]
    | _ => []

/-- Invariant tying the two tables together. -/
def TablesInv (k : SymTables) : Prop :=
  (∀ s ∈ k.constSyms, s.isConstant = true ∧ s.nodes = 0 ∧
    s.dependents = [] ∧ s.choice = none ∧ s.prompts = []) ∧
  (∀ s ∈ k.syms, s.isConstant = false)

theorem tablesInv_init : TablesInv initTables := by
  constructor
  · intro s hs
    simp only [initTables, List.mem_cons, List.not_mem_nil, or_false] at hs
    rcases hs with rfl | rfl | rfl <;> exact ⟨rfl, rfl, rfl, rfl, rfl⟩
  · intro s hs
    simp [initTables] at hs

theorem tablesInv_step (k : SymTables) (op : BuildOp)
    (h : TablesInv k) : TablesInv (applyBuildOp k op) := by
  cases op with
  | define name t prompts dependents choice =>
    constructor
    · intro s hs
      exact h.1 s hs
    · intro s hs
      simp only [applyBuildOp] at hs
      by_cases hc : (k.syms.map Symbol.name).contains name
      · rw [if_pos hc] at hs
        rcases List.mem_map.mp hs with ⟨s0, hs0, heq⟩
        by_cases he : s0.name = name
        · rw [if_pos he] at heq
          rw [← heq]
          exact h.2 s0 hs0
        · rw [if_neg he] at heq
          rw [← heq]
          exact h.2 s0 hs0
      · rw [if_neg hc] at hs
        rcases List.mem_cons.mp hs with rfl | hmem
        · rfl
        · exact h.2 s hmem
  | intern s0 =>
    constructor
    · intro s hs
      simp only [applyBuildOp] at hs
      by_cases hc : (k.constSyms.map Symbol.name).contains s0
      · rw [if_pos hc] at hs
        exact h.1 s hs
      · rw [if_neg hc] at hs
        rcases List.mem_cons.mp hs with rfl | hmem
        · exact ⟨rfl, rfl, rfl, rfl, rfl⟩
        · exact h.1 s hmem
    · intro s hs
      exact h.2 s hs

theorem tablesInv_foldl (ops : List BuildOp) :
    TablesInv (ops.foldl applyBuildOp initTables) := by
  have general : ∀ (l : List BuildOp) (k : SymTables), TablesInv k →
      TablesInv (l.foldl applyBuildOp k) := by
    intro l
    induction l with
    | nil => intro k hk; exact hk
    | cons op rest ih =>
      intro k hk
      exact ih _ (tablesInv_step k op hk)
  exact general ops initTables tablesInv_init

/-- C9: in every configuration reachable by parse steps, the constant
symbols are kept in a constant-symbol table disjoint from the ordinary
symbol table; every constant symbol has an empty assignable set, no
definition nodes, no dependents, is not a choice member, and calling
set_value on it fails without changing it. -/
theorem c9_constant_symbols (ops : List BuildOp)
    (s : Symbol)
    (hs : s ∈ (ops.foldl applyBuildOp initTables).constSyms) :
    s.isConstant = true ∧ s.nodes = 0 ∧ s.dependents = [] ∧
    s.choice = none ∧ assignable s = [] ∧
    (∀ v, setValue s v = (false, s)) ∧
    s ∉ (ops.foldl applyBuildOp initTables).syms := by
  have hinv := tablesInv_foldl ops
  obtain ⟨hconst, hnodes, hdeps, hchoice, hprompts⟩ := hinv.1 s hs
  refine ⟨hconst, hnodes, hdeps, hchoice, ?_, ?_, ?_⟩
  · simp [assignable, symVisibility, hprompts]
  · intro v
    simp [setValue, hconst]
  · intro hmem
    exact absurd hconst (by simp [hinv.2 s hmem])

/-- C9 witness: the interned quoted literal "const" is a constant
symbol with empty assignable set that rejects assignment of y. -/
theorem c9_constant_symbols_witness :
    assignable (mkConstSymbol "const") = [] ∧
    setValue (mkConstSymbol "const") (.tri 2)
      = (false, mkConstSymbol "const") ∧
    mkConstSymbol "const" ∉
      ([BuildOp.intern "const",
        BuildOp.define "BOOL" .bool [2] [] none].foldl applyBuildOp
          initTables).syms := by
  have h := c9_constant_symbols
    [BuildOp.intern "const", BuildOp.define "BOOL" .bool [2] [] none]
    (mkConstSymbol "const") (by decide)
  exact ⟨h.2.2.2.2.1, h.2.2.2.2.2.1 (.tri 2), h.2.2.2.2.2.2⟩

/-! ## Choices: mode, selection, and member values -/

/-- Static configuration of one choice: declared type (bool or
tristate), the MODULES symbol's value, the choice's own visibility
(prompt condition and dependency context), the optional flag, and
per-member data - declared type, prompt/dependency condition value,
applicable default value (0 when none), and the default-selection list
as (member, condition-holds) pairs in declaration order. -/
structure ChoiceCfg (n : Nat) where
  origType : SymType
  modules : Tri
  visibility : Tri
  isOptional : Bool
  memberType : Fin n → SymType
  memberPromptVis : Fin n → Tri
  memberDefault : Fin n → Tri
  defaults : List (Fin n × Bool)

/-- Mutable user state of a choice: the choice's own user value, the
member last set to y (the user selection), and per-member user
values. -/
structure ChoiceSt (n : Nat) where
  userValue : Option Tri
  userSelection : Option (Fin n)
  memberUser : Fin n → Option Tri

/-- The state before any assignment. -/
def initChoiceSt (n : Nat) : ChoiceSt n :=
  { userValue := none, userSelection := none, memberUser := fun _ => none }

/-- Modelled from the spec (§4.3.4) and the testsuite's mode table: the
choice's own tristate value (its mode) - n only for an optional choice
with no user value, raised by the user value, capped by the choice's
visibility, and with m promoted to y for bool choices and when modules
are disabled. -/
def choiceMode {n : Nat} (cfg : ChoiceCfg n) (st : ChoiceSt n) : Tri :=
  let base := if cfg.isOptional then 0 else 1
  let v :=
    match st.userValue with
    | some u => max base u
    | none => base
  let w := min v cfg.visibility
  if w = 1 ∧ (cfg.origType = .bool ∨ cfg.modules = 0) then 2 else w

/-- Modelled from the spec (§4.3.1) and the testsuite's visibility
tests: visibility of a choice member. A member whose type is not the
full tristate is invisible whenever the choice is not in y mode - per
the spec for members that are not bool/tristate at all, and per the
testsuite (BOOL_CHOICE_M) for non-tristate members of a tristate
choice; otherwise the member's prompt condition capped by the mode,
with m promoted to y for non-tristate member types. -/
def memberVisibility (choiceType memberType : SymType) (mode : Tri)
    (promptVis : Tri) : Tri :=
  if (¬(memberType = .bool ∨ memberType = .tristate) ∨
      (choiceType = .tristate ∧ memberType ≠ .tristate)) ∧ mode ≠ 2 then 0
  else
    let v := min promptVis mode
    if v = 1 ∧ memberType ≠ .tristate then 2 else v

/-- Modelled from the spec (§4.3.4): effective selection - none unless
the mode is y; otherwise the user selection when visible at y, else the
first default whose condition holds and whose member is visible at y,
else none. -/
def choiceSelection {n : Nat} (cfg : ChoiceCfg n) (st : ChoiceSt n) :
    Option (Fin n) :=
  let mode := choiceMode cfg st
  let mvis := fun i =>
    memberVisibility cfg.origType (cfg.memberType i) mode
      (cfg.memberPromptVis i)
  if mode ≠ 2 then none
  else
    let fromDefaults :=
      (cfg.defaults.find? (fun p => p.2 && decide (mvis p.1 = 2))).map
        Prod.fst
    match st.userSelection with
    | some i => if mvis i = 2 then some i else fromDefaults
    | none => fromDefaults

/-- Modelled from the spec (§4.3.3, §4.3.4): a member's effective
value. In a y-mode choice the selected member is y and every other
member is n; otherwise the user value capped by the member's
visibility when the member is visible, else the member's default capped
by its dependency context (its prompt condition and the choice's value,
on which every member depends). -/
def memberValue {n : Nat} (cfg : ChoiceCfg n) (st : ChoiceSt n)
    (i : Fin n) : Tri :=
  let mode := choiceMode cfg st
  if mode = 2 then
    if choiceSelection cfg st = some i then 2 else 0
  else
    let vis := memberVisibility cfg.origType (cfg.memberType i) mode
      (cfg.memberPromptVis i)
    match st.memberUser i with
    | some u =>
      if vis ≠ 0 then min u vis
      else min (cfg.memberDefault i) (min (cfg.memberPromptVis i) mode)
    | none => min (cfg.memberDefault i) (min (cfg.memberPromptVis i) mode)

/-- The set_value type check for tristate values. -/
def validTriFor (t : SymType) (v : Tri) : Bool :=
  match t with
  | .bool => v = 0 || v = 2
  | .tristate => v = 0 || v = 1 || v = 2
  | _ => false

/-- User operations on a choice: assigning the choice's own value or a
member's value. -/
inductive ChoiceOp (n : Nat)
  | setChoice (v : Tri)
  | setMember (i : Fin n) (v : Tri)

/-- Modelled from the spec (§4.3) and Choice/Symbol.set_value: one
assignment step; type-invalid values are rejected leaving the state
unchanged; setting a member to y records it as the choice's user
selection (even in m mode). -/
def choiceStep {n : Nat} (cfg : ChoiceCfg n) (st : ChoiceSt n) :
    ChoiceOp n → ChoiceSt n
  | .setChoice v =>
    if validTriFor cfg.origType v then { st with userValue := some v }
    else st
  | .setMember i v =>
    if validTriFor (cfg.memberType i) v then
      { st with
        memberUser := fun j => if j = i then some v else st.memberUser j,
        userSelection := if v = 2 then some i else st.userSelection }
    else st

/-- Running a sequence of assignments from the initial state. -/
def runChoice {n : Nat} (cfg : ChoiceCfg n) (ops : List (ChoiceOp n)) :
    ChoiceSt n :=
  ops.foldl (choiceStep cfg) (initChoiceSt n)

theorem promote_one_facts (w : Tri) (A B : Prop) [Decidable A]
    [Decidable B] (h : (if w = 1 ∧ (A ∨ B) then 2 else w) = 1) :
    ¬A ∧ ¬B := by
  split_ifs at h with hc
  · simp at h
  · push_neg at hc
    exact hc h

theorem choiceMode_one_facts {n : Nat} (cfg : ChoiceCfg n)
    (st : ChoiceSt n) (h1 : choiceMode cfg st = 1) :
    cfg.origType ≠ .bool ∧ cfg.modules ≠ 0 := by
  simp only [choiceMode] at h1
  exact promote_one_facts _ _ _ h1

theorem memberValue_modeY {n : Nat} (cfg : ChoiceCfg n) (st : ChoiceSt n)
    (h2 : choiceMode cfg st = 2) (i : Fin n) :
    memberValue cfg st i =
      if choiceSelection cfg st = some i then 2 else 0 := by
  simp [memberValue, h2]

theorem memberValue_le_one_of_modeM {n : Nat} (cfg : ChoiceCfg n)
    (st : ChoiceSt n)
    (htype : cfg.origType = .bool ∨ cfg.origType = .tristate)
    (h1 : choiceMode cfg st = 1) (i : Fin n) :
    memberValue cfg st i ≤ 1 := by
  obtain ⟨hnb, hnm⟩ := choiceMode_one_facts cfg st h1
  have horig : cfg.origType = .tristate := by
    rcases htype with h | h
    · exact absurd h hnb
    · exact h
  have hdef : min (cfg.memberDefault i) (min (cfg.memberPromptVis i) 1) ≤ 1 :=
    le_trans (min_le_right _ _) (min_le_right _ _)
  have hvis : memberVisibility cfg.origType (cfg.memberType i) 1
      (cfg.memberPromptVis i) ≤ 1 := by
    simp only [memberVisibility]
    split_ifs with hg hp
    · exact Nat.zero_le 1
    · exfalso
      push_neg at hg
      exact absurd (hg (Or.inr ⟨horig, hp.2⟩)) (by norm_num)
    · exact min_le_right _ _
  cases hu : st.memberUser i with
  | none =>
    simp [memberValue, h1, hu]
  | some u =>
    simp [memberValue, h1, hu]
    split_ifs with hv
    · exact hdef
    · exact le_trans (min_le_right _ _) hvis

theorem choiceStep_setChoice_two {n : Nat} (cfg : ChoiceCfg n)
    (st : ChoiceSt n)
    (htype : cfg.origType = .bool ∨ cfg.origType = .tristate) :
    choiceStep cfg st (.setChoice 2) = { st with userValue := some 2 } := by
  have hv : validTriFor cfg.origType 2 = true := by
    rcases htype with h | h <;> simp [validTriFor, h]
  simp [choiceStep, hv]

theorem choiceMode_after_setChoice_two {n : Nat} (cfg : ChoiceCfg n)
    (st : ChoiceSt n)
    (htype : cfg.origType = .bool ∨ cfg.origType = .tristate)
    (hvis : cfg.visibility = 2) :
    choiceMode cfg (choiceStep cfg st (.setChoice 2)) = 2 := by
  rw [choiceStep_setChoice_two cfg st htype]
  cases hopt : cfg.isOptional <;> simp [choiceMode, hvis, hopt]

theorem choiceSelection_modeY {n : Nat} (cfg : ChoiceCfg n)
    (st : ChoiceSt n) (h2 : choiceMode cfg st = 2) :
    choiceSelection cfg st =
      (match st.userSelection with
       | some i =>
         if memberVisibility cfg.origType (cfg.memberType i) 2
             (cfg.memberPromptVis i) = 2 then some i
         else (cfg.defaults.find? (fun p => p.2 && decide
           (memberVisibility cfg.origType (cfg.memberType p.1) 2
             (cfg.memberPromptVis p.1) = 2))).map Prod.fst
       | none => (cfg.defaults.find? (fun p => p.2 && decide
           (memberVisibility cfg.origType (cfg.memberType p.1) 2
             (cfg.memberPromptVis p.1) = 2))).map Prod.fst) := by
  simp [choiceSelection, h2]

/-- C3: after any sequence of assignments, in a built-in-mode ("on")
choice a member's effective value is y exactly when it is the effective
selection - so at most one member is on and all non-selected members
are off; in module mode no member may be on; and switching the choice
from module mode to built-in mode (when its visibility allows y)
promotes exactly one member - the prior module-mode user selection when
it is visible, else the declared default selection - to on. -/
theorem c3_choice_invariant {n : Nat} (cfg : ChoiceCfg n)
    (ops : List (ChoiceOp n))
    (htype : cfg.origType = .bool ∨ cfg.origType = .tristate) :
    (choiceMode cfg (runChoice cfg ops) = 2 →
      (∀ i, memberValue cfg (runChoice cfg ops) i = 2 ↔
        choiceSelection cfg (runChoice cfg ops) = some i) ∧
      (∀ i j, memberValue cfg (runChoice cfg ops) i = 2 →
        memberValue cfg (runChoice cfg ops) j = 2 → i = j) ∧
      (∀ i, choiceSelection cfg (runChoice cfg ops) ≠ some i →
        memberValue cfg (runChoice cfg ops) i = 0)) ∧
    (choiceMode cfg (runChoice cfg ops) = 1 →
      ∀ i, memberValue cfg (runChoice cfg ops) i ≤ 1) ∧
    (choiceMode cfg (runChoice cfg ops) = 1 → cfg.visibility = 2 →
      choiceMode cfg
        (choiceStep cfg (runChoice cfg ops) (.setChoice 2)) = 2 ∧
      (∀ i, choiceSelection cfg
          (choiceStep cfg (runChoice cfg ops) (.setChoice 2)) = some i →
        memberValue cfg
          (choiceStep cfg (runChoice cfg ops) (.setChoice 2)) i = 2 ∧
        ∀ j, j ≠ i → memberValue cfg
          (choiceStep cfg (runChoice cfg ops) (.setChoice 2)) j = 0) ∧
      (∀ i, (runChoice cfg ops).userSelection = some i →
        memberVisibility cfg.origType (cfg.memberType i) 2
          (cfg.memberPromptVis i) = 2 →
        choiceSelection cfg
          (choiceStep cfg (runChoice cfg ops) (.setChoice 2)) = some i) ∧
      ((runChoice cfg ops).userSelection = none →
        choiceSelection cfg
          (choiceStep cfg (runChoice cfg ops) (.setChoice 2)) =
            (cfg.defaults.find? (fun p => p.2 && decide
              (memberVisibility cfg.origType (cfg.memberType p.1) 2
                (cfg.memberPromptVis p.1) = 2))).map Prod.fst)) := by
  set st := runChoice cfg ops with hst
  refine ⟨?_, ?_, ?_⟩
  · intro h2
    have hval := memberValue_modeY cfg st h2
    refine ⟨?_, ?_, ?_⟩
    · intro i
      rw [hval i]
      constructor
      · intro hh
        by_contra hne
        simp [hne] at hh
      · intro hh
        simp [hh]
    · intro i j hi hj
      rw [hval i] at hi
      rw [hval j] at hj
      have hsi : choiceSelection cfg st = some i := by
        by_contra hne
        simp [hne] at hi
      have hsj : choiceSelection cfg st = some j := by
        by_contra hne
        simp [hne] at hj
      exact Option.some.inj (hsi.symm.trans hsj)
    · intro i hne
      rw [hval i]
      simp [hne]
  · intro h1 i
    exact memberValue_le_one_of_modeM cfg st htype h1 i
  · intro h1 hvis
    have hm2 := choiceMode_after_setChoice_two cfg st htype hvis
    refine ⟨hm2, ?_, ?_, ?_⟩
    · intro i hsel
      have hval := memberValue_modeY cfg _ hm2
      constructor
      · rw [hval i]
        simp [hsel]
      · intro j hji
        rw [hval j]
        have hnj : choiceSelection cfg
            (choiceStep cfg st (.setChoice 2)) ≠ some j := by
          rw [hsel]
          intro hc
          exact hji (Option.some.inj hc).symm
        simp [hnj]
    · intro i hus hvi
      rw [choiceSelection_modeY cfg _ hm2,
        choiceStep_setChoice_two cfg st htype]
      simp [hus, hvi]
    · intro hus
      rw [choiceSelection_modeY cfg _ hm2,
        choiceStep_setChoice_two cfg st htype]
      simp [hus]

/-- A concrete two-member tristate choice (modules enabled, visible
prompt, no declared defaults), mirroring the testsuite's TRISTATE
choice with members T_1 and T_2. -/
def wchoiceCfg : ChoiceCfg 2 :=
  { origType := .tristate, modules := 2, visibility := 2,
    isOptional := false, memberType := fun _ => .tristate,
    memberPromptVis := fun _ => 2, memberDefault := fun _ => 0,
    defaults := [] }

/-- In module mode, set member 0 to m and member 1 to y (clamped to m,
recorded as the user selection). -/
def wchoiceOps : List (ChoiceOp 2) :=
  [.setMember 0 1, .setMember 1 2]

/-- C3 witness: the invariant theorem applied to the concrete
two-member tristate choice - in module mode both members stay at or
below m, and switching the choice to y promotes exactly the prior user
selection (member 1) to y, the other member dropping to n. -/
theorem c3_choice_invariant_witness :
    choiceMode wchoiceCfg (runChoice wchoiceCfg wchoiceOps) = 1 ∧
    memberValue wchoiceCfg (runChoice wchoiceCfg wchoiceOps) 0 ≤ 1 ∧
    memberValue wchoiceCfg (runChoice wchoiceCfg wchoiceOps) 1 ≤ 1 ∧
    choiceMode wchoiceCfg
      (choiceStep wchoiceCfg (runChoice wchoiceCfg wchoiceOps)
        (.setChoice 2)) = 2 ∧
    choiceSelection wchoiceCfg
      (choiceStep wchoiceCfg (runChoice wchoiceCfg wchoiceOps)
        (.setChoice 2)) = some 1 ∧
    memberValue wchoiceCfg
      (choiceStep wchoiceCfg (runChoice wchoiceCfg wchoiceOps)
        (.setChoice 2)) 1 = 2 ∧
    memberValue wchoiceCfg
      (choiceStep wchoiceCfg (runChoice wchoiceCfg wchoiceOps)
        (.setChoice 2)) 0 = 0 := by
  have h := c3_choice_invariant wchoiceCfg wchoiceOps (Or.inr rfl)
  have h1 : choiceMode wchoiceCfg (runChoice wchoiceCfg wchoiceOps) = 1 :=
    by decide
  have hprom := h.2.2 h1 rfl
  have hsel : choiceSelection wchoiceCfg
      (choiceStep wchoiceCfg (runChoice wchoiceCfg wchoiceOps)
        (.setChoice 2)) = some 1 :=
    hprom.2.2.1 1 (by decide) (by decide)
  have hone := hprom.2.1 1 hsel
  exact ⟨h1, h.2.1 h1 0, h.2.1 h1 1, hprom.1, hsel, hone.1,
    hone.2 0 (by decide)⟩

/-- C6: a symbol with no prompt node among any of its definitions has
visibility off; a symbol that is neither bool- nor tristate-typed
inside a choice is visible only when the choice's mode is on; and a
choice gated by an `if m` condition - its visibility capped by the
value of m, min(1, modules) - can never reach on mode, so its
non-tristate member symbols stay invisible under every assignment
sequence, even after the user sets the choice to on. -/
theorem c6_visibility (sym : Symbol) (ct mt : SymType) (mode p : Tri)
    {n : Nat} (cfg : ChoiceCfg n) (pc : Tri) (ops : List (ChoiceOp n)) :
    (sym.prompts = [] → symVisibility sym = 0) ∧
    (mt ≠ .bool → mt ≠ .tristate → 0 < memberVisibility ct mt mode p →
      mode = 2) ∧
    (cfg.origType = .tristate →
      cfg.visibility = min pc (min 1 cfg.modules) →
      choiceMode cfg (runChoice cfg ops) ≠ 2 ∧
      (∀ i, cfg.memberType i ≠ .tristate →
        memberVisibility cfg.origType (cfg.memberType i)
          (choiceMode cfg (runChoice cfg ops))
          (cfg.memberPromptVis i) = 0)) := by
  refine ⟨?_, ?_, ?_⟩
  · intro h
    simp [symVisibility, h]
  · intro hb ht hpos
    by_contra hm
    have hfire : (¬(mt = .bool ∨ mt = .tristate) ∨
        (ct = .tristate ∧ mt ≠ .tristate)) ∧ mode ≠ 2 :=
      ⟨Or.inl (fun hc => hc.elim hb ht), hm⟩
    have h0 : memberVisibility ct mt mode p = 0 := by
      simp only [memberVisibility]
      exact if_pos hfire
    rw [h0] at hpos
    exact absurd hpos (by norm_num)
  · intro horig hgate
    have hvle : cfg.visibility ≤ 1 := by
      rw [hgate]
      exact le_trans (min_le_right _ _) (min_le_left _ _)
    have hmode : choiceMode cfg (runChoice cfg ops) ≤ 1 := by
      by_cases hm0 : cfg.modules = 0
      · have hv0 : cfg.visibility = 0 := by
          rw [hgate, hm0]
          simp
        simp [choiceMode, hv0]
      · have hnb : cfg.origType ≠ .bool := by
          rw [horig]
          decide
        simp only [choiceMode]
        rw [if_neg (fun hc => hc.2.elim hnb hm0)]
        exact le_trans (min_le_right _ _) hvle
    have hm2 : choiceMode cfg (runChoice cfg ops) ≠ 2 := by
      intro hh
      rw [hh] at hmode
      norm_num at hmode
    refine ⟨hm2, ?_⟩
    intro i hmt
    simp only [memberVisibility]
    exact if_pos ⟨Or.inr ⟨horig, hmt⟩, hm2⟩

/-- A one-member choice gated by `if m`: tristate, modules enabled, so
its visibility is min(prompt 2, min(1, modules 2)) = 1; the member is a
bool symbol. Mirrors the testsuite's BOOL_CHOICE_M scenario. -/
def wgatedCfg : ChoiceCfg 1 :=
  { origType := .tristate, modules := 2, visibility := 1,
    isOptional := false, memberType := fun _ => .bool,
    memberPromptVis := fun _ => 2, memberDefault := fun _ => 0,
    defaults := [] }

/-- C6 witness: the visibility theorem applied at concrete inputs - a
promptless symbol is invisible; the `if m`-gated choice stays out of on
mode and its bool member stays invisible even after the user assigns
the choice the value y; a visible string member of a y-mode choice
certifies the mode-on direction. -/
theorem c6_visibility_witness :
    symVisibility { name := "NO_PROMPT", origType := .bool } = 0 ∧
    choiceMode wgatedCfg (runChoice wgatedCfg [.setChoice 2]) ≠ 2 ∧
    memberVisibility wgatedCfg.origType (wgatedCfg.memberType 0)
      (choiceMode wgatedCfg (runChoice wgatedCfg [.setChoice 2]))
      (wgatedCfg.memberPromptVis 0) = 0 ∧
    (2 : Tri) = 2 := by
  have h := c6_visibility { name := "NO_PROMPT", origType := .bool }
    .tristate .string 2 2 wgatedCfg 2 [.setChoice 2]
  have hc := h.2.2 rfl rfl
  exact ⟨h.1 rfl, hc.1, hc.2 0 (by decide),
    h.2.1 (by decide) (by decide) (by decide)⟩

end Kconfiglib
